import Mathlib

/-!
Shallow embedding of the core pipeline of the tab-organizing extension:
deduplication (background handleDeduplicateTabs), classification
(tabClassifier.classifyTab), label partitioning and capping
(sidepanel.performClusteringAndGrouping), group materialization
(background handleGroupTabs), and enrichment triggering / generation
(uiRenderer.createGroupItem, getTabsForGroup, generateGroupSummary,
generateGroupContent).

External collaborators (the browser URL parser, JSON.parse, the model
sessions, the tab-group platform calls) are modelled as explicit function
parameters: a throwing call is an Except/Option value.  JavaScript
strings are Lean Strings; a JS falsy-string test (x || d) is modelled as
(if x = "" then d else x); slice(0, n) is jsSlice.
-/

namespace WebAI

/-- Metadata handed to the classifier: destructured `{ title, host, body }`. -/
structure TabMeta where
  title : String
  host : String
  body : String
deriving DecidableEq

/-- Result of one classification: `{ label, topic }`. -/
structure ClassResult where
  label : String
  topic : String
deriving DecidableEq

/-- A parsed JSON object as the classifier reads it: the `label` and
`topic` properties, absent properties as `none`. -/
structure JsonObj where
  label : Option String
  topic : Option String
deriving DecidableEq

instance {α β : Type} [DecidableEq α] [DecidableEq β] : DecidableEq (Except α β) :=
  fun x y =>
    match x, y with
    | .error a, .error b => decidable_of_iff (a = b) (by simp)
    | .ok a, .ok b => decidable_of_iff (a = b) (by simp)
    | .error _, .ok _ => isFalse (by simp)
    | .ok _, .error _ => isFalse (by simp)

/-- JS `s.slice(0, n)`: the first `n` characters of `s`. -/
def jsSlice (s : String) (n : Nat) : String := String.mk (s.toList.take n)

/-- JS `s.trim()`: leading and trailing whitespace removed. -/
def jsTrim (s : String) : String :=
  String.mk
    (((s.toList.dropWhile Char.isWhitespace).reverse.dropWhile Char.isWhitespace).reverse)

/-- JS `s.toLowerCase()`. -/
def jsToLower (s : String) : String := String.mk (s.toList.map Char.toLower)

/-- JS `x || d` on strings: empty string is falsy. -/
def jsOrStr (s d : String) : String := if s = "" then d else s

/-- JS `x || d` where `x` may be an absent property: `undefined` and `""` are falsy. -/
def jsOr (v : Option String) (d : String) : String :=
  match v with
  | none => d
  | some s => if s = "" then d else s

/-- The fixed category list from the classification prompt
(tabClassifier.js line 34). -/
def categoryList : List String :=
  ["News", "Sports", "Shopping", "Travel", "Learning", "Work", "Development",
   "Social", "Finance", "Entertainment", "Other"]

/-- One pass of `raw.replace(/```json|```/g, "")`: at each position an
occurrence of "```json", else of "```", is removed, else the character
kept.  The fuel argument only makes the recursion structural; every
recursive call consumes at least one character, so fuel equal to the
list length (as passed by `stripFencesAux`) never runs out. -/
def stripFencesGo : Nat → List Char → List Char
  | 0, _ => []
  | _, [] => []
  | Nat.succ n, c :: cs =>
    if (c :: cs).take 7 = "```json".toList then stripFencesGo n (cs.drop 6)
    else if (c :: cs).take 3 = "```".toList then stripFencesGo n (cs.drop 2)
    else c :: stripFencesGo n cs

/-- `raw.replace(/```json|```/g, "")` on character lists. -/
def stripFencesAux (l : List Char) : List Char := stripFencesGo l.length l

/-- `raw.replace(/```json|```/g, "").trim()` (tabClassifier.js line 59). -/
def stripFences (raw : String) : String :=
  jsTrim (String.mk (stripFencesAux raw.toList))

/-- The constant head of the classification prompt, up to and including
"TITLE: " (tabClassifier.js lines 29-38). -/
def promptIntro : String :=
  "# TASK: Classify the provided web page.\n\n" ++
  "  # INSTRUCTIONS:\n" ++
  "  1.  Your entire response MUST be a single, valid JSON object. Do not add any explanatory text, markdown, or any characters outside the JSON object.\n" ++
  "  2.  The JSON structure must be exactly: \x27\x7b \"label\": \"category\", \"topic\": \"brief description\"\x7d\x27.\n" ++
  "  3.  For the \"label\" value, you MUST use only ONE word from this specific list: [\"News\", \"Sports\", \"Shopping\", \"Travel\", \"Learning\", \"Work\", \"Development\", \"Social\", \"Finance\", \"Entertainment\", \"Other\"].\n" ++
  "  4.  For the \"topic\" value, provide a concise 3-5 word summary of the page\x27s main subject.\n\n" ++
  "  # PAGE DATA:\n" ++
  "  TITLE: "

/-- The full classification prompt built from the tab metadata
(tabClassifier.js lines 29-41). -/
def buildPrompt (m : TabMeta) : String :=
  promptIntro ++ m.title ++ "\n  HOST: " ++ m.host ++ "\n  CONTENT: " ++ m.body ++ "\n  "

/-- JS `title || \x27Unknown\x27`. -/
def jsTitle (title : String) : String := if title = "" then "Unknown" else title

/-- `classifyTab` (tabClassifier.js lines 26-67).  `parseJSON` models the
external `JSON.parse` (throw = `none`); `session` models the nullable
language-model session whose `prompt` call may throw (`Except.error`).
The `.error` return models `throw new Error(...)` escaping the function. -/
def classifyTab (parseJSON : String → Option JsonObj)
    (session : Option (String → Except String String)) (tabMeta : TabMeta) :
    Except String ClassResult :=
  match session with
  | none => .error "Language model session not available"
  | some s =>
    match s (buildPrompt tabMeta) with
    | .error _ =>
      .ok { label := "Other", topic := jsSlice (jsTitle tabMeta.title) 40 }
    | .ok raw =>
      match parseJSON (stripFences raw) with
      | some obj =>
        .ok { label := jsOr obj.label "Other",
              topic := jsSlice (jsOr obj.topic (jsTitle tabMeta.title)) 60 }
      | none =>
        .ok { label := "Other", topic := jsSlice (jsTitle tabMeta.title) 60 }

/-- A platform tab as used by the background handlers: identifier, URL,
title and owning window. -/
structure Tab where
  id : Nat
  url : String
  title : String
  windowId : Nat
deriving DecidableEq

/-- Substring occurrence test on character lists (JS `String.includes`). -/
def hasSub (pat : List Char) : List Char → Bool
  | [] => pat.isEmpty
  | c :: cs => ((c :: cs).take pat.length == pat) || hasSub pat cs

/-- JS `s.includes(pat)`. -/
def strContains (s pat : String) : Bool := hasSub pat.toList s.toList

/-- JS `s.startsWith(pat)`. -/
def jsStartsWith (s pat : String) : Bool := s.toList.take pat.toList.length == pat.toList

/-- The background valid-tab filter (part_001 lines 152-158):
`tab.url && tab.url.startsWith("http") && !includes("chrome://") &&
!includes("chrome-extension://")`. -/
def isValidTabUrl (url : String) : Bool :=
  url != "" && jsStartsWith url "http" &&
    !(strContains url "chrome://") && !(strContains url "chrome-extension://")

/-- Dedupe key of a tab (part_001 lines 165-167):
`new URL(tab.url).hostname` joined with the lowercased-trimmed title.
`hostOf` models the external URL parser; a parse throw is `none` and the
tab is skipped. -/
def dedupeKey (hostOf : String → Option String) (t : Tab) : Option String :=
  (hostOf t.url).map (fun host => host ++ ":" ++ jsTrim (jsToLower t.title))

/-- The seen-map/toClose loop of `handleDeduplicateTabs` (part_001 lines
160-177).  `seen` is the insertion-ordered key map (first tab kept per
key), `toClose` the tabs marked for removal. -/
def dedupeLoop (hostOf : String → Option String) :
    List Tab → List (String × Tab) → List Tab → List (String × Tab) × List Tab
  | [], seen, toClose => (seen, toClose)
  | t :: ts, seen, toClose =>
    match dedupeKey hostOf t with
    | none => dedupeLoop hostOf ts seen toClose
    | some key =>
      if seen.any (fun p => decide (p.1 = key)) then
        dedupeLoop hostOf ts seen (toClose ++ [t])
      else
        dedupeLoop hostOf ts (seen ++ [(key, t)]) toClose

/-- `handleDeduplicateTabs` (part_001 lines 149-187): filter to valid
tabs, then run the dedupe loop.  Returns the kept key map and the closed
tabs; the `closed` count of the response is the length of the second component. -/
def handleDeduplicateTabs (hostOf : String → Option String) (tabs : List Tab) :
    List (String × Tab) × List Tab :=
  dedupeLoop hostOf (tabs.filter (fun t => isValidTabUrl t.url)) [] []

/-- The sidepanel tab filter `/^https?:/.test(t.url || "")`
(sidepanel.js line 199). -/
def jsHttpTest (url : String) : Bool :=
  jsStartsWith url "http:" || jsStartsWith url "https:"

/-- The cap constant `MAX_TABS` (sidepanel.js line 202). -/
def MAX_TABS : Nat := 100

/-- The capping step (sidepanel.js lines 203-208): `tabs.splice(MAX_TABS)`
keeps only the first `MAX_TABS` entries. -/
def capTabs (tabs : List Tab) : List Tab :=
  if tabs.length > MAX_TABS then tabs.take MAX_TABS else tabs

/-- Metadata prepared for classification (sidepanel.js lines 216-222). -/
structure ExtractedTab where
  tabId : Nat
  url : String
  title : String
  host : String
  body : String
deriving DecidableEq

/-- Step 4 of the orchestrator (sidepanel.js lines 216-222): tab metadata
with `body: ""` — content extraction is skipped.  `hostOf` models
`new URL(t.url).hostname` on the already-filtered URLs. -/
def extractedOf (hostOf : String → String) (tabs : List Tab) : List ExtractedTab :=
  tabs.map fun t =>
    { tabId := t.id, url := t.url, title := t.title, host := hostOf t.url, body := "" }

/-- A classified tab as pushed by the orchestrator (sidepanel.js lines
248-255): the extracted fields plus `label: cls.label || "Other"` and
`topic: (cls.topic || "").slice(0, 60)`. -/
structure ClassifiedTab where
  tabId : Nat
  url : String
  title : String
  host : String
  body : String
  label : String
  topic : String
deriving DecidableEq

/-- Combining one batch entry with its classification outcome
(sidepanel.js lines 248-255).  `f` models the per-tab classification
result of the awaited `classifyTab` call. -/
def toClassified (f : ExtractedTab → ClassResult) (it : ExtractedTab) : ClassifiedTab :=
  { tabId := it.tabId, url := it.url, title := it.title, host := it.host,
    body := it.body, label := jsOrStr (f it).label "Other",
    topic := jsSlice (jsOrStr (f it).topic "") 60 }

/-- The batched classification loop (sidepanel.js lines 230-256): slices
of `BATCH_SIZE = 5` are classified and appended in order.  The fuel
argument only makes the recursion structural; each call consumes at
least one element, so fuel equal to the list length never runs out. -/
def classifyBatchesGo (f : ExtractedTab → ClassResult) :
    Nat → List ExtractedTab → List ClassifiedTab
  | 0, _ => []
  | _, [] => []
  | Nat.succ n, it :: rest =>
    (toClassified f it :: (rest.take 4).map (toClassified f)) ++
      classifyBatchesGo f n (rest.drop 4)

/-- The batched classification of sidepanel.js lines 230-256. -/
def classifyBatchesLoop (f : ExtractedTab → ClassResult)
    (l : List ExtractedTab) : List ClassifiedTab :=
  classifyBatchesGo f l.length l

/-- JS `item.label || "Other"` (sidepanel.js line 274). -/
def labelOf (t : ClassifiedTab) : String := jsOrStr t.label "Other"

/-- One collision-free step of building `labelGroups` (sidepanel.js
lines 273-279): if the label already has an own entry push the index to
it, else append a fresh entry.  The own properties of the JS object are
an insertion-ordered association list; the prototype-chain collision of
the real lookup (a label naming an inherited `Object.prototype`
property) is modelled by `buildOwnLoop`, which throws instead of taking
either branch here. -/
def addToLabelGroups (groups : List (String × List Nat)) (label : String) (idx : Nat) :
    List (String × List Nat) :=
  if groups.any (fun p => decide (p.1 = label)) then
    groups.map (fun p => if p.1 = label then (p.1, p.2 ++ [idx]) else p)
  else groups ++ [(label, [idx])]

/-- The `classified.forEach` loop over (index, item) pairs
(sidepanel.js lines 272-279). -/
def buildLabelGroupsLoop :
    List (Nat × ClassifiedTab) → List (String × List Nat) → List (String × List Nat)
  | [], acc => acc
  | p :: ps, acc => buildLabelGroupsLoop ps (addToLabelGroups acc (labelOf p.2) p.1)

/-- The own-property map of `labelGroups` in insertion order, for runs
in which no label collides with an inherited `Object.prototype`
property.  The full JS behaviour of sidepanel.js lines 272-285 — the
prototype-collision crash and the `Object.entries` rule that
integer-like keys enumerate first in numeric order — is
`buildLabelGroupsJS` below; this collision-free own map is its
successful-case building block. -/
def buildLabelGroups (classified : List ClassifiedTab) : List (String × List Nat) :=
  buildLabelGroupsLoop classified.enum []

/-- Tab identifiers of one cluster (sidepanel.js line 290):
`c.items.map(id => classified[id]?.tabId).filter(Boolean)` — an
out-of-range index yields `undefined` and a `tabId` of `0` is falsy, so
both are dropped by `filter(Boolean)`. -/
def tabIdsOfCluster (classified : List ClassifiedTab) (items : List Nat) : List Nat :=
  items.filterMap fun id =>
    match classified.get? id with
    | some ct => if ct.tabId = 0 then none else some ct.tabId
    | none => none

/-- A group definition sent to `GROUP_TABS`. -/
structure GroupSpec where
  name : String
  tabIds : List Nat
deriving DecidableEq

/-- Mapping clusters to group definitions (sidepanel.js lines 288-291). -/
def groupsOfClusters (classified : List ClassifiedTab)
    (clusters : List (String × List Nat)) : List GroupSpec :=
  clusters.map fun c => { name := c.1, tabIds := tabIdsOfCluster classified c.2 }

/-- Outcome of materializing one group (part_001 lines 204-263): either a
success with a count and platform-assigned color, or a recorded error
with count 0. -/
structure GroupResult where
  name : String
  count : Nat
  color : Option String
  error : Option String
deriving DecidableEq

/-- The platform environment of `handleGroupTabs`: the live tabs
(identifier to owning window; `chrome.tabs.get` throws on a missing
identifier, modelled by lookup failure), the focused window, and the
three throwing platform calls used per group. -/
structure GroupEnv where
  liveTabs : List (Nat × Nat)
  winId : Nat
  groupCall : List Nat → Except String Nat
  updateCall : Nat → Except String Unit
  colorCall : Nat → Except String String

/-- The valid-tab-id resolution loop (part_001 lines 215-225): keep an
identifier when `chrome.tabs.get` succeeds and the tab is in the focused
window; a throw is caught and the identifier skipped. -/
def resolveValidTabIds (liveTabs : List (Nat × Nat)) (winId : Nat)
    (tabIds : List Nat) : List Nat :=
  tabIds.filter fun tid =>
    match liveTabs.lookup tid with
    | some w => decide (w = winId)
    | none => false

/-- The per-group body of `handleGroupTabs` (part_001 lines 205-263),
including its `try/catch`: every platform throw inside the loop body is
converted into an error result for that group alone. -/
def handleOneGroup (env : GroupEnv) (g : GroupSpec) : GroupResult :=
  if g.tabIds.isEmpty then
    { name := g.name, count := 0, color := none, error := some "No tabs to group" }
  else
    match resolveValidTabIds env.liveTabs env.winId g.tabIds with
    | [] =>
      { name := g.name, count := 0, color := none,
        error := some "No valid tabs in current window" }
    | valid =>
      match env.groupCall valid with
      | .error e => { name := g.name, count := 0, color := none, error := some e }
      | .ok gid =>
        match env.updateCall gid with
        | .error e => { name := g.name, count := 0, color := none, error := some e }
        | .ok _ =>
          match env.colorCall gid with
          | .error e => { name := g.name, count := 0, color := none, error := some e }
          | .ok color =>
            { name := g.name, count := valid.length, color := some color, error := none }

/-- The materialization loop of `handleGroupTabs` (part_001 lines
202-266), given a normal focused window (the non-normal-window guard
returns a run-level failure before this loop). -/
def handleGroupTabs (env : GroupEnv) (groups : List GroupSpec) : List GroupResult :=
  groups.map (handleOneGroup env)

/-- An entry of `organizedTabsData` (sidepanel.js lines 259-266), or the
placeholder `\x7b title: "Unknown Tab", url: "#", body: "" \x7d`
substituted by `getTabsForGroup`; the placeholder has no `tabId`. -/
structure OrganizedTab where
  tabId : Option Nat
  title : String
  url : String
  label : String
  topic : String
  body : String
deriving DecidableEq

/-- `organizedTabsData` built from the classified tabs (sidepanel.js
lines 259-266). -/
def organizedOf (classified : List ClassifiedTab) : List OrganizedTab :=
  classified.map fun it =>
    { tabId := some it.tabId, title := it.title, url := it.url,
      label := it.label, topic := it.topic, body := it.body }

/-- The placeholder for an unresolvable item id (uiRenderer.js line 70). -/
def placeholderTab : OrganizedTab :=
  { tabId := none, title := "Unknown Tab", url := "#", label := "", topic := "",
    body := "" }

/-- `getTabsForGroup` (uiRenderer.js lines 64-73): map each item id to
its organized entry, substituting the placeholder when the id does not
resolve.  The trailing `.filter(Boolean)` keeps every element, since all
elements are objects. -/
def getTabsForGroup (originalGroup : Option (String × List Nat))
    (organizedTabsData : List OrganizedTab) : List OrganizedTab :=
  match originalGroup with
  | none => []
  | some g => g.2.map fun itemId => (organizedTabsData.get? itemId).getD placeholderTab

/-- The enrichment condition of `createGroupItem` (uiRenderer.js lines
117-118): `groupTabs && groupTabs.length >= 5`. -/
def enrichmentTriggered (originalGroup : Option (String × List Nat))
    (organizedTabsData : List OrganizedTab) : Bool :=
  decide (5 ≤ (getTabsForGroup originalGroup organizedTabsData).length)

/-- The combined content string of `generateGroupSummary`
(uiRenderer.js lines 371-373). -/
def combinedContent (groupTabs : List OrganizedTab) : String :=
  String.intercalate "\n\n---\n\n"
    (groupTabs.map fun tab =>
      "Title: " ++ tab.title ++ "\nURL: " ++ tab.url ++ "\nContent: " ++ tab.body)

/-- The summarizer context hint (uiRenderer.js line 376). -/
def summaryContext (groupName : String) : String :=
  "These web pages are all related to " ++ groupName ++
    ". Summarize the key themes and topics."

/-- `generateGroupSummary` (uiRenderer.js lines 369-383): a throwing
summarize call is caught and the string "Summary generation failed"
returned. -/
def generateGroupSummary (groupTabs : List OrganizedTab) (groupName : String)
    (summarize : String → String → Except String String) : String :=
  match summarize (combinedContent groupTabs) (summaryContext groupName) with
  | .ok s => s
  | .error _ => "Summary generation failed"

/-- The writer prompt of `generateGroupContent` (uiRenderer.js lines
388-389). -/
def overviewPrompt (groupTabs : List OrganizedTab) (groupName : String) : String :=
  "Write a brief overview of these " ++ groupName ++ " topics: " ++
    String.intercalate ", " (groupTabs.map (·.title))

/-- The writer context hint (uiRenderer.js line 392). -/
def overviewContext (groupName : String) : String :=
  "These are web pages about " ++ groupName ++
    " that a user has grouped together for research or reference."

/-- `generateGroupContent` (uiRenderer.js lines 386-399): a throwing
write call is caught and `null` returned. -/
def generateGroupContent (groupTabs : List OrganizedTab) (groupName : String)
    (write : String → String → Except String String) : Option String :=
  match write (overviewPrompt groupTabs groupName) (overviewContext groupName) with
  | .ok c => some c
  | .error _ => none

/-- The summary display branch of `createGroupItem` (uiRenderer.js lines
188-196): a truthy summary is rendered (`render` models
`DOMPurify.sanitize(marked.parse(...))`), a falsy one shows the sentinel
"Summary unavailable". -/
def summaryDisplay (render : String → String) (summary : String) : String :=
  if summary = "" then "Summary unavailable" else render summary

/-- First-seen-order key list: the order `Object.entries` yields the
label keys in, used to state what "ordered by first occurrence" means. -/
def firstSeenLoop : List String → List String → List String
  | [], acc => acc
  | l :: ls, acc => firstSeenLoop ls (if l ∈ acc then acc else acc ++ [l])

/-- The distinct labels of a list in order of first occurrence. -/
def firstSeenOrder (ls : List String) : List String := firstSeenLoop ls []

/-- Unfolding of `classifyTab` for a present session. -/
theorem classifyTab_some (parseJSON : String → Option JsonObj)
    (sfn : String → Except String String) (m : TabMeta) :
    classifyTab parseJSON (some sfn) m =
      match sfn (buildPrompt m) with
      | .error _ =>
        .ok { label := "Other", topic := jsSlice (jsTitle m.title) 40 }
      | .ok raw =>
        match parseJSON (stripFences raw) with
        | some obj =>
          .ok { label := jsOr obj.label "Other",
                topic := jsSlice (jsOr obj.topic (jsTitle m.title)) 60 }
        | none =>
          .ok { label := "Other", topic := jsSlice (jsTitle m.title) 60 } := rfl

/-! ### C1: the result label is not always confined to the closed category set -/

/-- A JSON.parse oracle for the out-of-vocabulary scenario: the model
answer parses to an object whose label is "Banana". -/
def c1parse : String → Option JsonObj := fun s =>
  if s = "\x7b \"label\": \"Banana\", \"topic\": \"tropical fruit\" \x7d" then
    some { label := some "Banana", topic := some "tropical fruit" }
  else none

/-- A session whose prompt call answers with valid JSON carrying an
out-of-vocabulary label. -/
def c1session : String → Except String String := fun _ =>
  .ok "\x7b \"label\": \"Banana\", \"topic\": \"tropical fruit\" \x7d"

/-- C1 counterexample: when the parsed model output carries the label
"Banana", which is outside the closed category set, `classifyTab` returns
"Banana" verbatim — the fallback "Other" is not substituted. -/
theorem classify_outOfVocab_counterexample :
    classifyTab c1parse (some c1session) { title := "t", host := "h", body := "" } =
      .ok { label := "Banana", topic := "tropical fruit" } ∧
    "Banana" ∉ categoryList := by
  constructor
  · decide
  · decide

/-- C1 (amended): the label of a successful `classifyTab` result is
either the fallback "Other" (used when the parse fails, the call throws,
or the parsed label is missing or empty) or the non-empty parsed label
passed through verbatim, with no membership check against the closed
category set. -/
theorem classify_label_passthrough_spec
    (parseJSON : String → Option JsonObj) (sfn : String → Except String String)
    (m : TabMeta) (r : ClassResult)
    (h : classifyTab parseJSON (some sfn) m = .ok r) :
    r.label = "Other" ∨
      ∃ raw obj, sfn (buildPrompt m) = .ok raw ∧
        parseJSON (stripFences raw) = some obj ∧
        obj.label = some r.label ∧ r.label ≠ "" := by
  rw [classifyTab_some] at h
  cases hs : sfn (buildPrompt m) with
  | error e =>
    rw [hs] at h
    dsimp only at h
    injection h with h
    left; rw [← h]
  | ok raw =>
    rw [hs] at h
    dsimp only at h
    cases hp : parseJSON (stripFences raw) with
    | none =>
      rw [hp] at h
      dsimp only at h
      injection h with h
      left; rw [← h]
    | some obj =>
      rw [hp] at h
      dsimp only at h
      injection h with h
      cases hl : obj.label with
      | none => left; rw [← h]; simp [jsOr, hl]
      | some s =>
        by_cases hse : s = ""
        · left; rw [← h]; simp [jsOr, hl, hse]
        · right
          refine ⟨raw, obj, rfl, hp, ?_, ?_⟩
          · rw [← h]; simp [jsOr, hl, hse]
          · rw [← h]; simp [jsOr, hl, hse]

/-- C1 witness: the amended characterization instantiated at the
out-of-vocabulary scenario. -/
theorem classify_label_passthrough_witness :
    ({ label := "Banana", topic := "tropical fruit" } : ClassResult).label = "Other" ∨
      ∃ raw obj, c1session (buildPrompt { title := "t", host := "h", body := "" }) = .ok raw ∧
        c1parse (stripFences raw) = some obj ∧
        obj.label = some ({ label := "Banana", topic := "tropical fruit" } : ClassResult).label ∧
        ({ label := "Banana", topic := "tropical fruit" } : ClassResult).label ≠ "" :=
  classify_label_passthrough_spec c1parse c1session
    { title := "t", host := "h", body := "" }
    { label := "Banana", topic := "tropical fruit" } (by decide)

/-! ### C2: classifyTab throws on a missing session -/

/-- C2 counterexample: with a missing (null) session, `classifyTab`
throws "Language model session not available" instead of returning a
fallback pair. -/
theorem classify_null_session_counterexample :
    classifyTab (fun _ => none) none { title := "t", host := "h", body := "" } =
      .error "Language model session not available" := rfl

/-- C2 (amended): for every non-null session, `classifyTab` never throws:
it always returns a `\x7b label, topic \x7d` pair, and on a call-level
error from the prompt call it returns the fallback pair with label
"Other" and the title-or-"Unknown" topic truncated to 40 characters.
With a null session it instead throws before any call is attempted. -/
theorem classify_no_throw_spec
    (parseJSON : String → Option JsonObj) (sfn : String → Except String String)
    (m : TabMeta) :
    (∃ r, classifyTab parseJSON (some sfn) m = .ok r) ∧
    (∀ e, sfn (buildPrompt m) = .error e →
      classifyTab parseJSON (some sfn) m =
        .ok { label := "Other", topic := jsSlice (jsTitle m.title) 40 }) := by
  constructor
  · rw [classifyTab_some]
    cases sfn (buildPrompt m) with
    | error e => exact ⟨_, rfl⟩
    | ok raw =>
      dsimp only
      cases parseJSON (stripFences raw) with
      | some obj => exact ⟨_, rfl⟩
      | none => exact ⟨_, rfl⟩
  · intro e he
    rw [classifyTab_some, he]

/-- C2 witness: a session whose prompt call throws yields the fallback
pair, not an error. -/
theorem classify_no_throw_witness :
    classifyTab (fun _ => none) (some fun _ => Except.error "quota exceeded")
      { title := "My Page", host := "example.com", body := "" } =
      .ok { label := "Other", topic := jsSlice (jsTitle "My Page") 40 } :=
  (classify_no_throw_spec (fun _ => none) (fun _ => Except.error "quota exceeded")
    { title := "My Page", host := "example.com", body := "" }).2 "quota exceeded" rfl

/-! ### C8: the parse-failure fallback truncates to 60 characters, not 40 -/

/-- C8 counterexample: on invalid JSON, `classifyTab` keeps the first 60
characters of the title; a 45-character title is returned whole, which
differs from the claimed 40-character truncation. -/
theorem classify_parsefail_counterexample :
    classifyTab (fun _ => none) (some fun _ => Except.ok "not valid json")
      { title := "Comprehensive guide to browser tab management",
        host := "example.com", body := "" } =
      .ok { label := "Other",
            topic := "Comprehensive guide to browser tab management" } ∧
    ("Comprehensive guide to browser tab management" : String) ≠
      jsSlice "Comprehensive guide to browser tab management" 40 := by
  constructor
  · decide
  · decide

/-- C8 (amended): when the classifier answer is not valid JSON after
code-fence stripping, `classifyTab` returns the fallback pair with label
"Other" and the title (or "Unknown" when the title is absent) truncated
to 60 characters — not 40; the 40-character truncation applies only to
the call-level-error path. -/
theorem classify_parsefail_spec
    (parseJSON : String → Option JsonObj) (sfn : String → Except String String)
    (m : TabMeta) (raw : String)
    (h1 : sfn (buildPrompt m) = .ok raw)
    (h2 : parseJSON (stripFences raw) = none) :
    classifyTab parseJSON (some sfn) m =
      .ok { label := "Other", topic := jsSlice (jsTitle m.title) 60 } := by
  rw [classifyTab_some, h1]
  dsimp only
  rw [h2]

/-- C8 witness: the amended fallback at a concrete unparseable answer. -/
theorem classify_parsefail_witness :
    classifyTab (fun _ => none) (some fun _ => Except.ok "not valid json")
      { title := "News Site", host := "news.com", body := "" } =
      .ok { label := "Other", topic := jsSlice (jsTitle "News Site") 60 } :=
  classify_parsefail_spec (fun _ => none) (fun _ => Except.ok "not valid json")
    { title := "News Site", host := "news.com", body := "" } "not valid json" rfl rfl

/-! ### C9: summarize failure yields "Summary generation failed", not the
"unavailable" sentinel; write failure yields null -/

/-- C9 counterexample: a throwing summarize call makes
`generateGroupSummary` return the truthy string "Summary generation
failed", so the display branch renders that text and the sentinel
"Summary unavailable" is not shown. -/
theorem summary_failure_counterexample :
    generateGroupSummary [] "News" (fun _ _ => .error "service failure") =
      "Summary generation failed" ∧
    summaryDisplay (fun s => s)
      (generateGroupSummary [] "News" (fun _ _ => .error "service failure")) ≠
      "Summary unavailable" := by
  constructor
  · rfl
  · decide

/-- C9 (amended): a failing summarize call yields the fallback string
"Summary generation failed" (a non-empty value, so the "Summary
unavailable" sentinel branch is not taken), a failing write-overview
call yields null, and neither failure is raised past the enrichment
boundary — both generators return a value. -/
theorem enrichment_failure_spec
    (groupTabs : List OrganizedTab) (groupName : String)
    (sfn wfn : String → String → Except String String) (e e' : String)
    (hs : sfn (combinedContent groupTabs) (summaryContext groupName) = .error e)
    (hw : wfn (overviewPrompt groupTabs groupName) (overviewContext groupName) = .error e') :
    generateGroupSummary groupTabs groupName sfn = "Summary generation failed" ∧
    generateGroupContent groupTabs groupName wfn = none ∧
    generateGroupSummary groupTabs groupName sfn ≠ "" := by
  unfold generateGroupSummary generateGroupContent
  rw [hs, hw]
  refine ⟨rfl, rfl, ?_⟩
  dsimp only
  decide

/-- C9 witness: the amended behaviour at concrete failing sessions. -/
theorem enrichment_failure_witness :
    generateGroupSummary [] "News" (fun _ _ => Except.error "boom") =
      "Summary generation failed" ∧
    generateGroupContent [] "News" (fun _ _ => Except.error "boom") = none ∧
    generateGroupSummary [] "News" (fun _ _ => Except.error "boom") ≠ "" :=
  enrichment_failure_spec [] "News" (fun _ _ => Except.error "boom")
    (fun _ _ => Except.error "boom") "boom" "boom" rfl rfl

/-! ### C10: classification inputs always carry an empty body -/

/-- C10: every tab the orchestrator prepares for classification has an
empty body, the classification prompt for such a tab has an empty
CONTENT field, and classification is decided by title and host alone:
two prepared tabs agreeing on title and host are classified
identically. -/
theorem body_empty_spec (hostOf : String → String) (tabs : List Tab) :
    (∀ m ∈ extractedOf hostOf tabs, m.body = "") ∧
    (∀ m ∈ extractedOf hostOf tabs,
      buildPrompt { title := m.title, host := m.host, body := m.body } =
        promptIntro ++ m.title ++ "\n  HOST: " ++ m.host ++ "\n  CONTENT: " ++ "" ++ "\n  ") ∧
    (∀ (parseJSON : String → Option JsonObj)
       (session : Option (String → Except String String)),
      ∀ m ∈ extractedOf hostOf tabs, ∀ m' ∈ extractedOf hostOf tabs,
        m.title = m'.title → m.host = m'.host →
        classifyTab parseJSON session { title := m.title, host := m.host, body := m.body } =
          classifyTab parseJSON session { title := m'.title, host := m'.host, body := m'.body }) := by
  refine ⟨?_, ?_, ?_⟩
  · intro m hm
    rcases List.mem_map.mp hm with ⟨t, _, rfl⟩
    rfl
  · intro m hm
    rcases List.mem_map.mp hm with ⟨t, _, rfl⟩
    rfl
  · intro parseJSON session m hm m' hm' ht hh
    rcases List.mem_map.mp hm with ⟨t, _, rfl⟩
    rcases List.mem_map.mp hm' with ⟨t', _, rfl⟩
    simp only at ht hh
    rw [ht, hh]

/-- C10 witness: the empty-body invariant at a concrete tab list. -/
theorem body_empty_witness :
    ExtractedTab.body
      { tabId := 1, url := "http://a.com/x", title := "A", host := "a.com", body := "" } = "" :=
  (body_empty_spec (fun _ => "a.com")
    [{ id := 1, url := "http://a.com/x", title := "A", windowId := 0 }]).1
    { tabId := 1, url := "http://a.com/x", title := "A", host := "a.com", body := "" }
    (by decide)

/-! ### C6: per-partition failure handling in group materialization -/

/-- C6: materialization processes every partition independently — the
result list pairs one `GroupResult` to each partition and splitting the
input splits the output, so a failure in one partition never aborts the
others; an empty partition is recorded as the "No tabs to group" failure
with count 0; a partition none of whose tab identifiers resolves in the
focused window is recorded as the "No valid tabs in current window"
failure with count 0; and a throwing platform grouping call is converted
into a failure result for that partition only. -/
theorem groupTabs_spec (env : GroupEnv) (groups : List GroupSpec) :
    (handleGroupTabs env groups).length = groups.length ∧
    (∀ pre g post, groups = pre ++ g :: post →
      handleGroupTabs env groups =
        handleGroupTabs env pre ++ handleOneGroup env g :: handleGroupTabs env post) ∧
    (∀ g : GroupSpec, g.tabIds = [] →
      handleOneGroup env g =
        { name := g.name, count := 0, color := none,
          error := some "No tabs to group" }) ∧
    (∀ g : GroupSpec, resolveValidTabIds env.liveTabs env.winId g.tabIds = [] →
      g.tabIds ≠ [] →
      handleOneGroup env g =
        { name := g.name, count := 0, color := none,
          error := some "No valid tabs in current window" }) ∧
    (∀ g : GroupSpec, ∀ e, g.tabIds ≠ [] →
      env.groupCall (resolveValidTabIds env.liveTabs env.winId g.tabIds) = .error e →
      resolveValidTabIds env.liveTabs env.winId g.tabIds ≠ [] →
      handleOneGroup env g =
        { name := g.name, count := 0, color := none, error := some e }) := by
  refine ⟨?_, ?_, ?_, ?_, ?_⟩
  · simp [handleGroupTabs]
  · intro pre g post h
    subst h
    simp [handleGroupTabs]
  · intro g hg
    simp [handleOneGroup, hg]
  · intro g hres hne
    have hemp : g.tabIds.isEmpty = false := by
      cases hids : g.tabIds with
      | nil => exact absurd hids hne
      | cons a as => rfl
    unfold handleOneGroup
    rw [hemp, hres]
    rfl
  · intro g e hne hcall hvne
    have hemp : g.tabIds.isEmpty = false := by
      cases hids : g.tabIds with
      | nil => exact absurd hids hne
      | cons a as => rfl
    unfold handleOneGroup
    rw [hemp]
    cases hrr : resolveValidTabIds env.liveTabs env.winId g.tabIds with
    | nil => exact absurd hrr hvne
    | cons a as =>
      rw [hrr] at hcall
      dsimp only
      rw [hcall]
      rfl

/-- C6 witness: the empty-partition and unresolvable-partition failures
at a concrete environment, via the theorem. -/
theorem groupTabs_spec_witness :
    handleOneGroup
      { liveTabs := [(1, 0)], winId := 0, groupCall := fun _ => .ok 9,
        updateCall := fun _ => .ok (), colorCall := fun _ => .ok "blue" }
      { name := "News", tabIds := [] } =
      { name := "News", count := 0, color := none,
        error := some "No tabs to group" } ∧
    handleOneGroup
      { liveTabs := [(1, 0)], winId := 0, groupCall := fun _ => .ok 9,
        updateCall := fun _ => .ok (), colorCall := fun _ => .ok "blue" }
      { name := "Sports", tabIds := [7] } =
      { name := "Sports", count := 0, color := none,
        error := some "No valid tabs in current window" } :=
  ⟨(groupTabs_spec
      { liveTabs := [(1, 0)], winId := 0, groupCall := fun _ => .ok 9,
        updateCall := fun _ => .ok (), colorCall := fun _ => .ok "blue" } []).2.2.1
      { name := "News", tabIds := [] } rfl,
   (groupTabs_spec
      { liveTabs := [(1, 0)], winId := 0, groupCall := fun _ => .ok 9,
        updateCall := fun _ => .ok (), colorCall := fun _ => .ok "blue" } []).2.2.2.1
      { name := "Sports", tabIds := [7] } (by decide) (by decide)⟩

/-! ### C4: label partitioning through a real JS object — disjoint and
exhaustive when no label collides with `Object.prototype`, but a
colliding label crashes the loop and integer-like labels reorder the
partitions -/

theorem any_eq_mem_keys (groups : List (String × List Nat)) (label : String) :
    groups.any (fun p => decide (p.1 = label)) = true ↔ label ∈ groups.map Prod.fst := by
  simp only [List.any_eq_true, decide_eq_true_eq, List.mem_map]

theorem map_keep_of_not_mem (label : String) (idx : Nat) :
    ∀ groups : List (String × List Nat), (∀ p ∈ groups, p.1 ≠ label) →
      groups.map (fun p => if p.1 = label then (p.1, p.2 ++ [idx]) else p) = groups := by
  intro groups
  induction groups with
  | nil => intro _; rfl
  | cons p rest ih =>
    intro h
    rw [List.map_cons, if_neg (h p (List.mem_cons_self p rest)),
      ih fun q hq => h q (List.mem_cons_of_mem p hq)]

theorem join_insert_of_mem (label : String) (idx : Nat) :
    ∀ groups : List (String × List Nat), (groups.map Prod.fst).Nodup →
      label ∈ groups.map Prod.fst →
      ((groups.map fun p => if p.1 = label then (p.1, p.2 ++ [idx]) else p).map
          Prod.snd).flatten.Perm (idx :: (groups.map Prod.snd).flatten) := by
  intro groups
  induction groups with
  | nil => intro _ hmem; simp at hmem
  | cons p rest ih =>
    intro hnd hmem
    simp only [List.map_cons] at hnd
    rcases List.nodup_cons.mp hnd with ⟨hp_not, hnd_rest⟩
    by_cases hp : p.1 = label
    · have hrest : ∀ q ∈ rest, q.1 ≠ label := fun q hq hq1 =>
        hp_not (List.mem_map.mpr ⟨q, hq, hq1.trans hp.symm⟩)
      simp only [List.map_cons, if_pos hp, map_keep_of_not_mem label idx rest hrest,
        List.flatten_cons]
      rw [List.append_assoc, List.singleton_append]
      exact List.perm_middle
    · have hmem2 : label ∈ rest.map Prod.fst := by
        rcases List.mem_cons.mp hmem with h1 | h1
        · exact absurd h1.symm hp
        · exact h1
      simp only [List.map_cons, if_neg hp, List.flatten_cons]
      refine List.Perm.trans (List.Perm.append_left p.2 (ih hnd_rest hmem2)) ?_
      exact List.perm_middle

theorem addToLabelGroups_keys (groups : List (String × List Nat)) (label : String)
    (idx : Nat) :
    (addToLabelGroups groups label idx).map Prod.fst =
      if label ∈ groups.map Prod.fst then groups.map Prod.fst
      else groups.map Prod.fst ++ [label] := by
  unfold addToLabelGroups
  by_cases hm : label ∈ groups.map Prod.fst
  · rw [if_pos ((any_eq_mem_keys groups label).mpr hm), if_pos hm, List.map_map]
    apply List.map_congr_left
    intro p _
    by_cases hp : p.1 = label
    · simp [hp]
    · simp [hp]
  · rw [if_neg (fun hc => hm ((any_eq_mem_keys groups label).mp hc)), if_neg hm]
    simp

theorem addToLabelGroups_nodup (groups : List (String × List Nat)) (label : String)
    (idx : Nat) (h : (groups.map Prod.fst).Nodup) :
    ((addToLabelGroups groups label idx).map Prod.fst).Nodup := by
  rw [addToLabelGroups_keys]
  by_cases hm : label ∈ groups.map Prod.fst
  · rwa [if_pos hm]
  · rw [if_neg hm]
    simp [List.nodup_append, h, hm]

theorem addToLabelGroups_flatten (groups : List (String × List Nat)) (label : String)
    (idx : Nat) (h : (groups.map Prod.fst).Nodup) :
    ((addToLabelGroups groups label idx).map Prod.snd).flatten.Perm
      (idx :: (groups.map Prod.snd).flatten) := by
  unfold addToLabelGroups
  by_cases hm : label ∈ groups.map Prod.fst
  · rw [if_pos ((any_eq_mem_keys groups label).mpr hm)]
    exact join_insert_of_mem label idx groups h hm
  · rw [if_neg (fun hc => hm ((any_eq_mem_keys groups label).mp hc))]
    have he : ((groups ++ [(label, [idx])]).map Prod.snd).flatten =
        (groups.map Prod.snd).flatten ++ [idx] := by simp
    rw [he]
    exact List.perm_append_comm

theorem buildLoop_keys :
    ∀ (pairs : List (Nat × ClassifiedTab)) (acc : List (String × List Nat)),
      (buildLabelGroupsLoop pairs acc).map Prod.fst =
        firstSeenLoop (pairs.map fun p => labelOf p.2) (acc.map Prod.fst) := by
  intro pairs
  induction pairs with
  | nil => intro acc; rfl
  | cons p ps ih =>
    intro acc
    simp only [buildLabelGroupsLoop, List.map_cons, firstSeenLoop]
    rw [ih, addToLabelGroups_keys]

theorem buildLoop_flatten :
    ∀ (pairs : List (Nat × ClassifiedTab)) (acc : List (String × List Nat)),
      (acc.map Prod.fst).Nodup →
      ((buildLabelGroupsLoop pairs acc).map Prod.snd).flatten.Perm
        ((acc.map Prod.snd).flatten ++ pairs.map Prod.fst) := by
  intro pairs
  induction pairs with
  | nil =>
    intro acc _
    rw [List.map_nil, List.append_nil]
    exact List.Perm.refl _
  | cons p ps ih =>
    intro acc h
    have h1 := ih (addToLabelGroups acc (labelOf p.2) p.1)
      (addToLabelGroups_nodup acc (labelOf p.2) p.1 h)
    have h2 := List.Perm.append_right (ps.map Prod.fst)
      (addToLabelGroups_flatten acc (labelOf p.2) p.1 h)
    refine List.Perm.trans (List.Perm.trans h1 h2) ?_
    rw [List.map_cons, List.cons_append]
    exact List.perm_middle.symm

/-- The concatenated index lists of the partitions are a permutation of all
positions of the classified list. -/
theorem buildLabelGroups_flatten_perm (classified : List ClassifiedTab) :
    ((buildLabelGroups classified).map Prod.snd).flatten.Perm
      (List.range classified.length) := by
  have h := buildLoop_flatten classified.enum [] (by simp)
  simpa [buildLabelGroups, List.enum_map_fst] using h

/-- The key order of the collision-free own map is the first-seen label
order. -/
theorem buildLabelGroups_keys (classified : List ClassifiedTab) :
    (buildLabelGroups classified).map Prod.fst = firstSeenOrder (classified.map labelOf) := by
  have h := buildLoop_keys classified.enum []
  simp only [buildLabelGroups, firstSeenOrder]
  rw [h]
  congr 1
  calc classified.enum.map (fun p => labelOf p.2)
      = (classified.enum.map Prod.snd).map labelOf := by
        rw [List.map_map]; rfl
    _ = classified.map labelOf := by rw [List.enum_map_snd]

/-- The property names inherited from `Object.prototype` (V8): reading
`labelGroups[label]` for such a label finds a truthy inherited value, so
the `!labelGroups[label]` initialization test is skipped and the
subsequent `.push` on a non-array throws. -/
def protoProps : List String :=
  ["constructor", "toString", "toLocaleString", "valueOf", "hasOwnProperty",
   "isPrototypeOf", "propertyIsEnumerable", "__proto__", "__defineGetter__",
   "__defineSetter__", "__lookupGetter__", "__lookupSetter__"]

/-- Decimal value of a digit string. -/
def digitsToNat (cs : List Char) : Nat :=
  cs.foldl (fun n c => n * 10 + (c.toNat - 48)) 0

/-- Numeric value of an integer-like key. -/
def keyNum (s : String) : Nat := digitsToNat s.toList

/-- Whether a string is an array-index key in the sense of the JS
object-property order: the canonical decimal form of an integer below
2^32 - 1 (no leading zero except "0" itself). -/
def isArrayIndexKey (s : String) : Bool :=
  !s.toList.isEmpty && s.toList.all Char.isDigit &&
    (s.toList.length == 1 || s.toList.head? != some '0') &&
    decide (digitsToNat s.toList < 4294967295)

/-- Insertion step of the numeric-order sort of integer-like keys. -/
def insertPairByNum (p : String × List Nat) :
    List (String × List Nat) → List (String × List Nat)
  | [] => [p]
  | q :: qs =>
    if keyNum p.1 ≤ keyNum q.1 then p :: q :: qs else q :: insertPairByNum p qs

/-- Sort an entry list ascending by numeric key value. -/
def sortPairsByNum : List (String × List Nat) → List (String × List Nat)
  | [] => []
  | p :: ps => insertPairByNum p (sortPairsByNum ps)

/-- `Object.entries` enumeration order on an insertion-ordered own map:
integer-like keys first, ascending numerically, then the remaining keys
in insertion order. -/
def jsObjectEntries (own : List (String × List Nat)) : List (String × List Nat) :=
  sortPairsByNum (own.filter fun p => isArrayIndexKey p.1) ++
    own.filter fun p => !isArrayIndexKey p.1

/-- The `classified.forEach` loop of sidepanel.js lines 273-279 over the
real JS object: an own key is pushed to; a label that is not an own key
but names an inherited `Object.prototype` property reads truthy, skips
initialization, and the `.push` on the inherited non-array throws,
aborting the loop; any other label is initialized and pushed. -/
def buildOwnLoop :
    List (Nat × ClassifiedTab) → List (String × List Nat) →
      Except String (List (String × List Nat))
  | [], own => .ok own
  | p :: ps, own =>
    if own.any (fun q => decide (q.1 = labelOf p.2)) then
      buildOwnLoop ps (addToLabelGroups own (labelOf p.2) p.1)
    else if labelOf p.2 ∈ protoProps then
      .error "TypeError: labelGroups[label].push is not a function"
    else
      buildOwnLoop ps (addToLabelGroups own (labelOf p.2) p.1)

/-- The clusters structure `Object.entries(labelGroups).map(...)`
(sidepanel.js lines 272-285) with JS object semantics: the forEach loop
over the object (which can throw on a prototype collision, failing the
run), then `Object.entries` in property-enumeration order. -/
def buildLabelGroupsJS (classified : List ClassifiedTab) :
    Except String (List (String × List Nat)) :=
  match buildOwnLoop classified.enum [] with
  | .ok own => .ok (jsObjectEntries own)
  | .error e => .error e

theorem insertPairByNum_perm (p : String × List Nat) :
    ∀ l, (insertPairByNum p l).Perm (p :: l)
  | [] => List.Perm.refl _
  | q :: qs => by
    simp only [insertPairByNum]
    by_cases h : keyNum p.1 ≤ keyNum q.1
    · rw [if_pos h]
    · rw [if_neg h]
      exact List.Perm.trans (List.Perm.cons q (insertPairByNum_perm p qs))
        (List.Perm.swap p q qs)

theorem sortPairsByNum_perm : ∀ l, (sortPairsByNum l).Perm l
  | [] => List.Perm.refl _
  | p :: ps => by
    simp only [sortPairsByNum]
    exact List.Perm.trans (insertPairByNum_perm p (sortPairsByNum ps))
      (List.Perm.cons p (sortPairsByNum_perm ps))

/-- Reordering by `Object.entries` is a permutation of the own map. -/
theorem jsObjectEntries_perm (own : List (String × List Nat)) :
    (jsObjectEntries own).Perm own := by
  unfold jsObjectEntries
  refine List.Perm.trans (List.Perm.append_right _ (sortPairsByNum_perm _)) ?_
  exact List.filter_append_perm _ own

/-- When no key is integer-like, `Object.entries` preserves insertion
order. -/
theorem jsObjectEntries_of_no_index (own : List (String × List Nat))
    (h : ∀ p ∈ own, isArrayIndexKey p.1 = false) : jsObjectEntries own = own := by
  unfold jsObjectEntries
  have h1 : own.filter (fun p => isArrayIndexKey p.1) = [] := by
    rw [List.filter_eq_nil_iff]
    intro a ha
    simp [h a ha]
  have h2 : own.filter (fun p => !isArrayIndexKey p.1) = own := by
    rw [List.filter_eq_self]
    intro a ha
    simp [h a ha]
  rw [h1, h2]
  rfl

/-- Every key produced by the first-seen fold comes from the
accumulator or the input labels. -/
theorem firstSeenLoop_mem :
    ∀ (ls acc : List String) (k : String),
      k ∈ firstSeenLoop ls acc → k ∈ acc ∨ k ∈ ls := by
  intro ls
  induction ls with
  | nil => intro acc k h; exact Or.inl h
  | cons l ls ih =>
    intro acc k h
    simp only [firstSeenLoop] at h
    rcases ih _ k h with h1 | h1
    · by_cases hm : l ∈ acc
      · rw [if_pos hm] at h1
        exact Or.inl h1
      · rw [if_neg hm] at h1
        rcases List.mem_append.mp h1 with h2 | h2
        · exact Or.inl h2
        · exact Or.inr (by rw [List.mem_singleton.mp h2]; exact List.mem_cons_self l ls)
    · exact Or.inr (List.mem_cons_of_mem l h1)

/-- Without a prototype collision, the loop over the JS object succeeds
and builds exactly the collision-free own map. -/
theorem buildOwnLoop_ok :
    ∀ (pairs : List (Nat × ClassifiedTab)) (own : List (String × List Nat)),
      (∀ p ∈ pairs, labelOf p.2 ∉ protoProps) →
      buildOwnLoop pairs own = .ok (buildLabelGroupsLoop pairs own) := by
  intro pairs
  induction pairs with
  | nil => intro own _; rfl
  | cons p ps ih =>
    intro own hp
    have hlab : labelOf p.2 ∉ protoProps := hp p (List.mem_cons_self p ps)
    have hps : ∀ q ∈ ps, labelOf q.2 ∉ protoProps := fun q hq =>
      hp q (List.mem_cons_of_mem p hq)
    simp only [buildOwnLoop, buildLabelGroupsLoop]
    by_cases hany : own.any (fun q => decide (q.1 = labelOf p.2)) = true
    · rw [if_pos hany]
      exact ih _ hps
    · rw [if_neg hany, if_neg hlab]
      exact ih _ hps

/-- With a prototype-colliding label anywhere in the input, the loop
over the JS object throws. -/
theorem buildOwnLoop_error :
    ∀ (pairs : List (Nat × ClassifiedTab)) (own : List (String × List Nat)),
      (∀ q ∈ own, q.1 ∉ protoProps) →
      (∃ p ∈ pairs, labelOf p.2 ∈ protoProps) →
      ∃ e, buildOwnLoop pairs own = .error e := by
  intro pairs
  induction pairs with
  | nil =>
    intro own _ hex
    rcases hex with ⟨p, hp, _⟩
    exact absurd hp (List.not_mem_nil p)
  | cons p ps ih =>
    intro own hown hex
    simp only [buildOwnLoop]
    by_cases hlab : labelOf p.2 ∈ protoProps
    · have hany : ¬(own.any (fun q => decide (q.1 = labelOf p.2)) = true) := by
        intro hc
        rcases List.any_eq_true.mp hc with ⟨q, hq, hqe⟩
        exact hown q hq (by rw [of_decide_eq_true hqe]; exact hlab)
      rw [if_neg hany, if_pos hlab]
      exact ⟨_, rfl⟩
    · have hex2 : ∃ q ∈ ps, labelOf q.2 ∈ protoProps := by
        rcases hex with ⟨q, hq, hqp⟩
        rcases List.mem_cons.mp hq with hq1 | hq2
        · exact absurd (hq1 ▸ hqp) hlab
        · exact ⟨q, hq2, hqp⟩
      have hown2 : ∀ q ∈ addToLabelGroups own (labelOf p.2) p.1, q.1 ∉ protoProps := by
        intro q hq
        have hk : q.1 ∈ (addToLabelGroups own (labelOf p.2) p.1).map Prod.fst :=
          List.mem_map_of_mem Prod.fst hq
        rw [addToLabelGroups_keys] at hk
        by_cases hm : labelOf p.2 ∈ own.map Prod.fst
        · rw [if_pos hm] at hk
          rcases List.mem_map.mp hk with ⟨r, hr, hre⟩
          rw [← hre]
          exact hown r hr
        · rw [if_neg hm] at hk
          rcases List.mem_append.mp hk with h1 | h1
          · rcases List.mem_map.mp h1 with ⟨r, hr, hre⟩
            rw [← hre]
            exact hown r hr
          · rw [List.mem_singleton.mp h1]
            exact hlab
      by_cases hany : own.any (fun q => decide (q.1 = labelOf p.2)) = true
      · rw [if_pos hany]
        exact ih _ hown2 hex2
      · rw [if_neg hany, if_neg hlab]
        exact ih _ hown2 hex2

/-- A one-partition run whose label collides with `Object.prototype`. -/
def c4proto : List ClassifiedTab :=
  [{ tabId := 1, url := "http://a.com/1", title := "a", host := "a.com", body := "",
     label := "toString", topic := "" }]

/-- A run whose second label is the integer-like key "42". -/
def c4index : List ClassifiedTab :=
  [{ tabId := 1, url := "http://news.com/1", title := "n", host := "news.com",
     body := "", label := "News", topic := "" },
   { tabId := 2, url := "http://x.com/2", title := "x", host := "x.com",
     body := "", label := "42", topic := "" }]

/-- C4 counterexample: against real JS object semantics the claim fails
twice. A pass-through label "toString" collides with the inherited
`Object.prototype` property, the `.push` throws and partitioning
crashes, so that tab ends up in no partition (the union is not the
classified input set); and with labels ["News", "42"] the `Object.entries`
rule enumerates the integer-like key "42" first, so the partitions are
not ordered by first occurrence of each label. -/
theorem partition_object_counterexample :
    buildLabelGroupsJS c4proto =
      .error "TypeError: labelGroups[label].push is not a function" ∧
    buildLabelGroupsJS c4index = .ok [("42", [1]), ("News", [0])] ∧
    firstSeenOrder (c4index.map labelOf) = ["News", "42"] ∧
    (["42", "News"] : List String) ≠ ["News", "42"] := by
  refine ⟨?_, ?_, ?_, ?_⟩ <;> decide

/-- C4 (amended): partitioning through the real JS object succeeds iff
no label collides with an inherited `Object.prototype` property; on
success the partitions are pairwise disjoint, their union is exactly the
classified input set (every tab in exactly one partition, none omitted),
they are a permutation of the collision-free own map, and — whenever no
label is an integer-like object key — they are ordered by first
occurrence of each label (integer-like labels otherwise enumerate
first, in numeric order).  When a label does collide, the partitioning
loop throws, the run fails and no partition list is produced. -/
theorem partitionJS_spec (classified : List ClassifiedTab) :
    ((∀ t ∈ classified, labelOf t ∉ protoProps) →
      ∃ gs, buildLabelGroupsJS classified = .ok gs ∧
        gs.Perm (buildLabelGroups classified) ∧
        (gs.map Prod.snd).flatten.Perm (List.range classified.length) ∧
        gs.Pairwise (fun a b => List.Disjoint a.2 b.2) ∧
        ((∀ t ∈ classified, isArrayIndexKey (labelOf t) = false) →
          gs.map Prod.fst = firstSeenOrder (classified.map labelOf))) ∧
    ((∃ t ∈ classified, labelOf t ∈ protoProps) →
      ∃ e, buildLabelGroupsJS classified = .error e) := by
  constructor
  · intro hp
    have hpairs : ∀ p ∈ classified.enum, labelOf p.2 ∉ protoProps := by
      intro p hp2
      have hmem : p.2 ∈ classified := by
        rw [← List.enum_map_snd classified]
        exact List.mem_map_of_mem Prod.snd hp2
      exact hp p.2 hmem
    have hok := buildOwnLoop_ok classified.enum [] hpairs
    have hgs : buildLabelGroupsJS classified =
        .ok (jsObjectEntries (buildLabelGroupsLoop classified.enum [])) := by
      unfold buildLabelGroupsJS
      rw [hok]
    have hperm : (jsObjectEntries (buildLabelGroupsLoop classified.enum [])).Perm
        (buildLabelGroups classified) := jsObjectEntries_perm _
    have hflat : ((jsObjectEntries (buildLabelGroupsLoop classified.enum [])).map
        Prod.snd).flatten.Perm (List.range classified.length) :=
      ((hperm.map Prod.snd).flatten).trans (buildLabelGroups_flatten_perm classified)
    refine ⟨jsObjectEntries (buildLabelGroupsLoop classified.enum []),
      hgs, hperm, hflat, ?_, ?_⟩
    · have hnd := hflat.nodup_iff.mpr (List.nodup_range _)
      have hpw := (List.nodup_flatten.mp hnd).2
      rw [List.pairwise_map] at hpw
      exact hpw
    · intro hni
      have hno : ∀ p ∈ buildLabelGroupsLoop classified.enum [],
          isArrayIndexKey p.1 = false := by
        intro p hpmem
        have hk : p.1 ∈ (buildLabelGroups classified).map Prod.fst :=
          List.mem_map_of_mem Prod.fst hpmem
        rw [buildLabelGroups_keys classified] at hk
        rcases firstSeenLoop_mem (classified.map labelOf) [] p.1 hk with h1 | h1
        · exact absurd h1 (List.not_mem_nil _)
        · rcases List.mem_map.mp h1 with ⟨t, ht, hte⟩
          rw [← hte]
          exact hni t ht
      rw [jsObjectEntries_of_no_index _ hno]
      exact buildLabelGroups_keys classified
  · intro hex
    have hpairs : ∃ p ∈ classified.enum, labelOf p.2 ∈ protoProps := by
      rcases hex with ⟨t, ht, hpt⟩
      have hmem : t ∈ classified.enum.map Prod.snd := by
        rw [List.enum_map_snd]
        exact ht
      rcases List.mem_map.mp hmem with ⟨p, hp, hpe⟩
      exact ⟨p, hp, by rw [hpe]; exact hpt⟩
    rcases buildOwnLoop_error classified.enum []
      (fun q hq => absurd hq (List.not_mem_nil q)) hpairs with ⟨e, he⟩
    refine ⟨e, ?_⟩
    unfold buildLabelGroupsJS
    rw [he]

/-- A collision-free run: two "News" tabs and one unlabeled tab falling
back to "Other"; no label is integer-like or an `Object.prototype`
property. -/
def c4plain : List ClassifiedTab :=
  [{ tabId := 1, url := "u1", title := "a", host := "h1", body := "",
     label := "News", topic := "" },
   { tabId := 2, url := "u2", title := "b", host := "h2", body := "",
     label := "", topic := "" },
   { tabId := 3, url := "u3", title := "c", host := "h3", body := "",
     label := "News", topic := "" }]

/-- C4 witness: the amended theorem instantiated at the collision-free
run. -/
theorem partitionJS_spec_witness :
    ∃ gs, buildLabelGroupsJS c4plain = .ok gs ∧
      gs.Perm (buildLabelGroups c4plain) ∧
      (gs.map Prod.snd).flatten.Perm (List.range c4plain.length) ∧
      gs.Pairwise (fun a b => List.Disjoint a.2 b.2) ∧
      ((∀ t ∈ c4plain, isArrayIndexKey (labelOf t) = false) →
        gs.map Prod.fst = firstSeenOrder (c4plain.map labelOf)) :=
  (partitionJS_spec c4plain).1 (by decide)

/-! ### C5: the cap keeps exactly the first min(N, 100) tabs -/

/-- The working tab set of one run: the sidepanel scheme filter
(sidepanel.js line 199) followed by the cap (lines 203-208). -/
def workingTabs (tabs : List Tab) : List Tab :=
  capTabs (tabs.filter fun t => jsHttpTest t.url)

/-- The classified list of one run: metadata preparation (lines 216-222)
followed by batched classification (lines 230-256). -/
def pipelineClassified (hostOf : String → String) (f : ExtractedTab → ClassResult)
    (tabs : List Tab) : List ClassifiedTab :=
  classifyBatchesLoop f (extractedOf hostOf (workingTabs tabs))

theorem classifyBatchesGo_eq_map (f : ExtractedTab → ClassResult) :
    ∀ (n : Nat) (l : List ExtractedTab), l.length ≤ n →
      classifyBatchesGo f n l = l.map (toClassified f) := by
  intro n
  induction n with
  | zero =>
    intro l hl
    rw [List.eq_nil_of_length_eq_zero (Nat.le_zero.mp hl)]
    rfl
  | succ n ih =>
    intro l hl
    cases l with
    | nil => rfl
    | cons it rest =>
      simp only [List.length_cons, Nat.succ_le_succ_iff] at hl
      show (toClassified f it :: (rest.take 4).map (toClassified f)) ++
          classifyBatchesGo f n (rest.drop 4) = (it :: rest).map (toClassified f)
      rw [ih (rest.drop 4) (by simp only [List.length_drop]; omega)]
      rw [List.map_cons, List.cons_append]
      congr 1
      rw [← List.map_append, List.take_append_drop]

theorem classifyBatchesLoop_eq_map (f : ExtractedTab → ClassResult)
    (l : List ExtractedTab) :
    classifyBatchesLoop f l = l.map (toClassified f) :=
  classifyBatchesGo_eq_map f l.length l (Nat.le_refl _)

theorem capTabs_length (tabs : List Tab) :
    (capTabs tabs).length = min tabs.length MAX_TABS := by
  unfold capTabs
  by_cases h : tabs.length > MAX_TABS
  · rw [if_pos h, List.length_take]
    omega
  · rw [if_neg h]
    omega

theorem capTabs_eq_take (tabs : List Tab) : capTabs tabs = tabs.take MAX_TABS := by
  unfold capTabs
  by_cases h : tabs.length > MAX_TABS
  · rw [if_pos h]
  · rw [if_neg h, List.take_of_length_le (by omega)]

theorem pipelineClassified_length (hostOf : String → String)
    (f : ExtractedTab → ClassResult) (tabs : List Tab) :
    (pipelineClassified hostOf f tabs).length = (workingTabs tabs).length := by
  rw [pipelineClassified, classifyBatchesLoop_eq_map, extractedOf]
  simp

/-- C5: the working set after the capping step is exactly the first
min(N, 100) valid tabs, every partition index of the run points into
that working set, and every tab identifier sent to the platform grouping
step is the identifier of a working-set tab — a tab beyond the cap never
appears in any partition or group of the run. -/
theorem cap_spec (tabs : List Tab) (hostOf : String → String)
    (f : ExtractedTab → ClassResult) :
    (workingTabs tabs).length = min (tabs.filter fun t => jsHttpTest t.url).length MAX_TABS ∧
    workingTabs tabs = (tabs.filter fun t => jsHttpTest t.url).take MAX_TABS ∧
    (∀ c ∈ buildLabelGroups (pipelineClassified hostOf f tabs),
      ∀ i ∈ c.2, i < (workingTabs tabs).length) ∧
    (∀ g ∈ groupsOfClusters (pipelineClassified hostOf f tabs)
        (buildLabelGroups (pipelineClassified hostOf f tabs)),
      ∀ tid ∈ g.tabIds, ∃ t ∈ workingTabs tabs, t.id = tid) := by
  refine ⟨capTabs_length _, capTabs_eq_take _, ?_, ?_⟩
  · intro c hc i hi
    have hmem : i ∈ ((buildLabelGroups (pipelineClassified hostOf f tabs)).map
        Prod.snd).flatten :=
      List.mem_flatten_of_mem (List.mem_map_of_mem Prod.snd hc) hi
    have hrange := (buildLabelGroups_flatten_perm _).mem_iff.mp hmem
    have hlt := List.mem_range.mp hrange
    rwa [pipelineClassified_length] at hlt
  · intro g hg tid htid
    rcases List.mem_map.mp hg with ⟨c, _, rfl⟩
    rcases List.mem_filterMap.mp htid with ⟨id, _, hid⟩
    cases hget : (pipelineClassified hostOf f tabs).get? id with
    | none =>
      rw [hget] at hid
      dsimp only at hid
      exact absurd hid (by simp)
    | some ct =>
      rw [hget] at hid
      dsimp only at hid
      have hct : ct ∈ pipelineClassified hostOf f tabs := List.get?_mem hget
      have htid_eq : ct.tabId = tid := by
        by_cases h0 : ct.tabId = 0
        · rw [if_pos h0] at hid; exact absurd hid (by simp)
        · rw [if_neg h0] at hid; exact Option.some.inj hid
      rw [pipelineClassified, classifyBatchesLoop_eq_map] at hct
      rcases List.mem_map.mp hct with ⟨ex, hex, hexeq⟩
      rcases List.mem_map.mp hex with ⟨t, ht, hteq⟩
      refine ⟨t, ht, ?_⟩
      rw [← htid_eq, ← hexeq, ← hteq]
      rfl

/-- C5 witness: the cap length identity and group-membership conjunct at
a concrete single-tab run. -/
theorem cap_spec_witness :
    (workingTabs [{ id := 5, url := "http://a.com/x", title := "T", windowId := 0 }]).length =
      min (([{ id := 5, url := "http://a.com/x", title := "T",
               windowId := 0 }] : List Tab).filter fun t => jsHttpTest t.url).length MAX_TABS ∧
    (∃ t ∈ workingTabs [{ id := 5, url := "http://a.com/x", title := "T", windowId := 0 }],
      t.id = 5) :=
  ⟨(cap_spec [{ id := 5, url := "http://a.com/x", title := "T", windowId := 0 }]
      (fun _ => "a.com") (fun _ => { label := "News", topic := "x" })).1,
   (cap_spec [{ id := 5, url := "http://a.com/x", title := "T", windowId := 0 }]
      (fun _ => "a.com") (fun _ => { label := "News", topic := "x" })).2.2.2
      { name := "News",
        tabIds := tabIdsOfCluster
          (pipelineClassified (fun _ => "a.com") (fun _ => { label := "News", topic := "x" })
            [{ id := 5, url := "http://a.com/x", title := "T", windowId := 0 }])
          [0] }
      (by decide) 5 (by decide)⟩

/-! ### C7: enrichment triggers on the partition item count, not the
realized member count -/

theorem handleOneGroup_count_le (env : GroupEnv) (g : GroupSpec) :
    (handleOneGroup env g).count ≤
      (resolveValidTabIds env.liveTabs env.winId g.tabIds).length := by
  unfold handleOneGroup
  by_cases hemp : g.tabIds.isEmpty
  · rw [if_pos hemp]
    exact Nat.zero_le _
  · rw [if_neg hemp]
    cases hrr : resolveValidTabIds env.liveTabs env.winId g.tabIds with
    | nil => exact Nat.zero_le _
    | cons a as =>
      dsimp only
      cases env.groupCall (a :: as) with
      | error e => exact Nat.zero_le _
      | ok gid =>
        dsimp only
        cases env.updateCall gid with
        | error e => exact Nat.zero_le _
        | ok u =>
          dsimp only
          cases env.colorCall gid with
          | error e => exact Nat.zero_le _
          | ok color => exact Nat.le_refl _

/-- The classified tabs of a run where one of five "News" tabs (tab 5)
has been closed before materialization. -/
def c7classified : List ClassifiedTab :=
  [{ tabId := 1, url := "http://news.com/1", title := "n1", host := "news.com",
     body := "", label := "News", topic := "t1" },
   { tabId := 2, url := "http://news.com/2", title := "n2", host := "news.com",
     body := "", label := "News", topic := "t2" },
   { tabId := 3, url := "http://news.com/3", title := "n3", host := "news.com",
     body := "", label := "News", topic := "t3" },
   { tabId := 4, url := "http://news.com/4", title := "n4", host := "news.com",
     body := "", label := "News", topic := "t4" },
   { tabId := 5, url := "http://news.com/5", title := "n5", host := "news.com",
     body := "", label := "News", topic := "t5" }]

/-- A platform state in which tabs 1-4 are live in the focused window
but tab 5 no longer resolves. -/
def c7env : GroupEnv :=
  { liveTabs := [(1, 0), (2, 0), (3, 0), (4, 0)], winId := 0,
    groupCall := fun _ => .ok 11, updateCall := fun _ => .ok (),
    colorCall := fun _ => .ok "blue" }

/-- C7 counterexample: a five-member "News" partition of which only four
tabs materialize has a realized member count of exactly 4, yet
enrichment still triggers — so a partition with realized count exactly 4
can receive a summary and overview. -/
theorem enrichment_realized_counterexample :
    ((handleGroupTabs c7env (groupsOfClusters c7classified
        (buildLabelGroups c7classified))).map fun r => r.count) = [4] ∧
    enrichmentTriggered ((buildLabelGroups c7classified).head?)
      (organizedOf c7classified) = true := by
  constructor
  · decide
  · decide

/-- C7 (amended): enrichment triggers iff the partition item count
(the length of `getTabsForGroup`, which substitutes a placeholder for
every unresolvable item) is at least 5; the realized member count of the
materialized group never exceeds the item count, so a realized count of
at least 5 still always triggers enrichment, but a partition of 5 items
with a realized count of 4 also triggers it. -/
theorem enrichment_trigger_spec (c : String × List Nat) (data : List OrganizedTab)
    (env : GroupEnv) (classified : List ClassifiedTab) :
    enrichmentTriggered (some c) data = decide (5 ≤ c.2.length) ∧
    (handleOneGroup env
        { name := c.1, tabIds := tabIdsOfCluster classified c.2 }).count ≤ c.2.length ∧
    (5 ≤ (handleOneGroup env
        { name := c.1, tabIds := tabIdsOfCluster classified c.2 }).count →
      enrichmentTriggered (some c) data = true) := by
  have hlen : enrichmentTriggered (some c) data = decide (5 ≤ c.2.length) := by
    simp [enrichmentTriggered, getTabsForGroup]
  have hle : (handleOneGroup env
      { name := c.1, tabIds := tabIdsOfCluster classified c.2 }).count ≤ c.2.length := by
    refine Nat.le_trans (handleOneGroup_count_le env _) ?_
    exact Nat.le_trans (List.length_filter_le _ _) (List.length_filterMap_le _ _)
  refine ⟨hlen, hle, ?_⟩
  intro h5
  rw [hlen]
  exact decide_eq_true (Nat.le_trans h5 hle)

/-- C7 witness: with all five tabs live, the realized count is 5 and
enrichment triggers, via the third conjunct of the theorem. -/
theorem enrichment_trigger_witness :
    enrichmentTriggered (some ("News", [0, 1, 2, 3, 4])) (organizedOf c7classified) = true :=
  (enrichment_trigger_spec ("News", [0, 1, 2, 3, 4]) (organizedOf c7classified)
    { liveTabs := [(1, 0), (2, 0), (3, 0), (4, 0), (5, 0)], winId := 0,
      groupCall := fun _ => .ok 11, updateCall := fun _ => .ok (),
      colorCall := fun _ => .ok "blue" }
    c7classified).2.2 (by decide)

/-! ### C3: deduplication keeps the first tab per key and closes the rest -/

theorem any_keys {α : Type} (l : List (String × α)) (key : String) :
    l.any (fun p => decide (p.1 = key)) = true ↔ key ∈ l.map Prod.fst := by
  simp only [List.any_eq_true, decide_eq_true_eq, List.mem_map]

theorem ite_bool_true {α : Sort u} (a b : α) : (if true = true then a else b) = a := rfl

theorem ite_bool_false {α : Sort u} (a b : α) : (if false = true then a else b) = b := rfl

/-- Characterization of the kept map: an entry is either inherited from
the accumulator or the first remaining tab with its key, for a key not
already in the accumulator. -/
theorem dedupeLoop_seen (hostOf : String → Option String) :
    ∀ (ts : List Tab) (seen : List (String × Tab)) (toClose : List Tab)
      (k : String) (t : Tab),
      (k, t) ∈ (dedupeLoop hostOf ts seen toClose).1 ↔
        ((k, t) ∈ seen ∨ (k ∉ seen.map Prod.fst ∧
          ts.find? (fun u => decide (dedupeKey hostOf u = some k)) = some t)) := by
  intro ts
  induction ts with
  | nil =>
    intro seen toClose k t
    simp [dedupeLoop]
  | cons t0 ts ih =>
    intro seen toClose k t
    cases hk : dedupeKey hostOf t0 with
    | none =>
      have hfind : List.find? (fun u => decide (dedupeKey hostOf u = some k)) (t0 :: ts)
          = List.find? (fun u => decide (dedupeKey hostOf u = some k)) ts := by
        simp [hk]
      rw [hfind]
      simp only [dedupeLoop, hk]
      exact ih seen toClose k t
    | some key =>
      by_cases hk_eq : k = key
      · subst hk_eq
        have hfind : List.find? (fun u => decide (dedupeKey hostOf u = some k)) (t0 :: ts)
            = some t0 := by
          simp [hk]
        rw [hfind]
        cases hany : seen.any (fun p => decide (p.1 = k)) with
        | true =>
          have hmem : k ∈ seen.map Prod.fst := (any_keys seen k).mp hany
          simp only [dedupeLoop, hk, hany, ite_bool_true, ite_bool_false, if_true, if_false]
          rw [ih seen (toClose ++ [t0]) k t]
          constructor
          · rintro (h | ⟨hnm, _⟩)
            · exact Or.inl h
            · exact absurd hmem hnm
          · rintro (h | ⟨hnm, _⟩)
            · exact Or.inl h
            · exact absurd hmem hnm
        | false =>
          have hnmem : k ∉ seen.map Prod.fst := fun hc =>
            by rw [(any_keys seen k).mpr hc] at hany; cases hany
          simp only [dedupeLoop, hk, hany, ite_bool_true, ite_bool_false, if_true, if_false]
          rw [ih (seen ++ [(k, t0)]) toClose k t]
          constructor
          · rintro (h | ⟨hnm, _⟩)
            · rcases List.mem_append.mp h with h1 | h1
              · exact Or.inl h1
              · rcases List.mem_singleton.mp h1 with h2
                exact Or.inr ⟨hnmem, by rw [Prod.mk.injEq] at h2; rw [h2.2]⟩
            · exact absurd (by simp : k ∈ (seen ++ [(k, t0)]).map Prod.fst) hnm
          · rintro (h | ⟨hnm, ht⟩)
            · exact Or.inl (List.mem_append_left _ h)
            · have hte : t = t0 := (Option.some.inj ht).symm
              exact Or.inl (List.mem_append_right _
                (by rw [hte]; exact List.mem_singleton.mpr rfl))
      · have hkk : ¬(key = k) := fun hc => hk_eq hc.symm
        have hfind : List.find? (fun u => decide (dedupeKey hostOf u = some k)) (t0 :: ts)
            = List.find? (fun u => decide (dedupeKey hostOf u = some k)) ts := by
          simp [hk, hkk]
        rw [hfind]
        cases hany : seen.any (fun p => decide (p.1 = key)) with
        | true =>
          simp only [dedupeLoop, hk, hany, ite_bool_true, ite_bool_false, if_true, if_false]
          exact ih seen (toClose ++ [t0]) k t
        | false =>
          simp only [dedupeLoop, hk, hany, ite_bool_true, ite_bool_false, if_true, if_false]
          rw [ih (seen ++ [(key, t0)]) toClose k t]
          constructor
          · rintro (h | ⟨hnm, ht⟩)
            · rcases List.mem_append.mp h with h1 | h1
              · exact Or.inl h1
              · rcases List.mem_singleton.mp h1 with h2
                exact absurd (congrArg Prod.fst h2) hk_eq
            · refine Or.inr ⟨fun hc => hnm ?_, ht⟩
              simp only [List.map_append, List.mem_append]
              exact Or.inl hc
          · rintro (h | ⟨hnm, ht⟩)
            · exact Or.inl (List.mem_append_left _ h)
            · refine Or.inr ⟨fun hc => ?_, ht⟩
              simp only [List.map_append, List.map_cons, List.map_nil,
                List.mem_append, List.mem_singleton] at hc
              rcases hc with hc | hc
              · exact hnm hc
              · exact hk_eq hc

/-- Together the kept and closed lists account exactly for the
key-parseable tabs. -/
theorem dedupeLoop_count (hostOf : String → Option String) :
    ∀ (ts : List Tab) (seen : List (String × Tab)) (toClose : List Tab),
      (dedupeLoop hostOf ts seen toClose).1.length +
          (dedupeLoop hostOf ts seen toClose).2.length =
        seen.length + toClose.length +
          (ts.filter fun t => (dedupeKey hostOf t).isSome).length := by
  intro ts
  induction ts with
  | nil => intro seen toClose; simp [dedupeLoop]
  | cons t0 ts ih =>
    intro seen toClose
    cases hk : dedupeKey hostOf t0 with
    | none =>
      simp only [dedupeLoop, hk]
      rw [ih seen toClose, List.filter_cons_of_neg (by simp [hk])]
    | some key =>
      cases hany : seen.any (fun p => decide (p.1 = key)) with
      | true =>
        simp only [dedupeLoop, hk, hany, ite_bool_true, ite_bool_false, if_true, if_false]
        rw [ih seen (toClose ++ [t0]), List.filter_cons_of_pos (by simp [hk])]
        simp only [List.length_append, List.length_cons, List.length_singleton,
          List.length_nil]
        omega
      | false =>
        simp only [dedupeLoop, hk, hany, ite_bool_true, ite_bool_false, if_true, if_false]
        rw [ih (seen ++ [(key, t0)]) toClose, List.filter_cons_of_pos (by simp [hk])]
        simp only [List.length_append, List.length_cons, List.length_singleton,
          List.length_nil]
        omega

/-- Every closed tab has a parseable key and that key belongs to a kept
entry. -/
theorem dedupeLoop_closed (hostOf : String → Option String) :
    ∀ (ts : List Tab) (seen : List (String × Tab)) (toClose : List Tab)
      (u : Tab), u ∈ (dedupeLoop hostOf ts seen toClose).2 →
      u ∈ toClose ∨ ∃ k, dedupeKey hostOf u = some k ∧
        k ∈ (dedupeLoop hostOf ts seen toClose).1.map Prod.fst := by
  intro ts
  induction ts with
  | nil =>
    intro seen toClose u hu
    exact Or.inl hu
  | cons t0 ts ih =>
    intro seen toClose u hu
    cases hk : dedupeKey hostOf t0 with
    | none =>
      simp only [dedupeLoop, hk] at hu ⊢
      exact ih seen toClose u hu
    | some key =>
      cases hany : seen.any (fun p => decide (p.1 = key)) with
      | true =>
        simp only [dedupeLoop, hk, hany, ite_bool_true, ite_bool_false, if_true, if_false] at hu ⊢
        rcases ih seen (toClose ++ [t0]) u hu with h | h
        · rcases List.mem_append.mp h with h1 | h1
          · exact Or.inl h1
          · have hu0 : u = t0 := List.mem_singleton.mp h1
            rcases List.any_eq_true.mp hany with ⟨p, hp, hpk⟩
            have hpk2 : p.1 = key := of_decide_eq_true hpk
            refine Or.inr ⟨key, by rw [hu0]; exact hk, ?_⟩
            have hmem : (key, p.2) ∈ (dedupeLoop hostOf ts seen (toClose ++ [t0])).1 :=
              (dedupeLoop_seen hostOf ts seen (toClose ++ [t0]) key p.2).mpr
                (Or.inl (by rw [← hpk2]; exact hp))
            exact List.mem_map.mpr ⟨(key, p.2), hmem, rfl⟩
        · exact Or.inr h
      | false =>
        simp only [dedupeLoop, hk, hany, ite_bool_true, ite_bool_false, if_true, if_false] at hu ⊢
        exact ih (seen ++ [(key, t0)]) toClose u hu

/-- The keys of the kept map stay pairwise distinct. -/
theorem dedupeLoop_nodup (hostOf : String → Option String) :
    ∀ (ts : List Tab) (seen : List (String × Tab)) (toClose : List Tab),
      (seen.map Prod.fst).Nodup →
      ((dedupeLoop hostOf ts seen toClose).1.map Prod.fst).Nodup := by
  intro ts
  induction ts with
  | nil => intro seen toClose h; exact h
  | cons t0 ts ih =>
    intro seen toClose h
    cases hk : dedupeKey hostOf t0 with
    | none =>
      simp only [dedupeLoop, hk]
      exact ih seen toClose h
    | some key =>
      cases hany : seen.any (fun p => decide (p.1 = key)) with
      | true =>
        simp only [dedupeLoop, hk, hany, ite_bool_true, ite_bool_false, if_true, if_false]
        exact ih seen (toClose ++ [t0]) h
      | false =>
        simp only [dedupeLoop, hk, hany, ite_bool_true, ite_bool_false, if_true, if_false]
        refine ih (seen ++ [(key, t0)]) toClose ?_
        have hnmem : key ∉ seen.map Prod.fst := fun hc =>
          by rw [(any_keys seen key).mpr hc] at hany; cases hany
        simp [List.nodup_append, h, hnmem]

/-- C3: among the valid tabs, deduplication keeps exactly the first tab
per (hostname, lowercased-trimmed-title) key — kept keys are pairwise
distinct and the kept tab for a key is the first valid tab carrying it —
closes only tabs whose key already belongs to a kept tab, and accounts
for every key-parseable valid tab exactly once (kept count + closed
count equals their number); a tab whose URL fails to parse is neither
kept nor closed. -/
theorem dedupe_spec (hostOf : String → Option String) (tabs : List Tab) :
    (((handleDeduplicateTabs hostOf tabs).1.map Prod.fst).Nodup) ∧
    ((handleDeduplicateTabs hostOf tabs).1.length +
        (handleDeduplicateTabs hostOf tabs).2.length =
      ((tabs.filter fun t => isValidTabUrl t.url).filter
        (fun t => (dedupeKey hostOf t).isSome)).length) ∧
    (∀ (k : String) (t : Tab),
      (k, t) ∈ (handleDeduplicateTabs hostOf tabs).1 ↔
        (tabs.filter fun t => isValidTabUrl t.url).find?
          (fun u => decide (dedupeKey hostOf u = some k)) = some t) ∧
    (∀ (k : String) (t : Tab),
      (k, t) ∈ (handleDeduplicateTabs hostOf tabs).1 → dedupeKey hostOf t = some k) ∧
    (∀ u ∈ (handleDeduplicateTabs hostOf tabs).2,
      ∃ k, dedupeKey hostOf u = some k ∧
        k ∈ (handleDeduplicateTabs hostOf tabs).1.map Prod.fst) := by
  have hseen : ∀ (k : String) (t : Tab),
      (k, t) ∈ (handleDeduplicateTabs hostOf tabs).1 ↔
        (tabs.filter fun t => isValidTabUrl t.url).find?
          (fun u => decide (dedupeKey hostOf u = some k)) = some t := by
    intro k t
    rw [handleDeduplicateTabs,
      dedupeLoop_seen hostOf (tabs.filter fun t => isValidTabUrl t.url) [] [] k t]
    simp
  refine ⟨?_, ?_, hseen, ?_, ?_⟩
  · exact dedupeLoop_nodup hostOf _ [] [] (by simp)
  · have h := dedupeLoop_count hostOf (tabs.filter fun t => isValidTabUrl t.url) [] []
    simpa [handleDeduplicateTabs] using h
  · intro k t hkt
    have hf := (hseen k t).mp hkt
    have := List.find?_some hf
    exact of_decide_eq_true this
  · intro u hu
    have h := dedupeLoop_closed hostOf (tabs.filter fun t => isValidTabUrl t.url) [] [] u
      (by simpa [handleDeduplicateTabs] using hu)
    rcases h with h | h
    · exact absurd h (List.not_mem_nil u)
    · exact h

/-- The URL parser oracle of the Lakers scenario: the ESPN URL parses,
the malformed one throws. -/
def c3host : String → Option String :=
  fun u => if u = "http://espn.com/a" then some "espn.com" else none

/-- The spec scenario tab list: two identical ESPN tabs plus one tab
whose URL fails to parse. -/
def c3tabs : List Tab :=
  [{ id := 1, url := "http://espn.com/a", title := "Lakers win", windowId := 0 },
   { id := 2, url := "http://espn.com/a", title := "Lakers win", windowId := 0 },
   { id := 3, url := "http://bad", title := "x", windowId := 0 }]

/-- C3 witness: in the Lakers scenario the second ESPN tab is closed and
its key is kept, and kept + closed accounts exactly for the
key-parseable valid tabs, via the theorem. -/
theorem dedupe_spec_witness :
    (∃ k, dedupeKey c3host
        { id := 2, url := "http://espn.com/a", title := "Lakers win", windowId := 0 } =
          some k ∧
      k ∈ (handleDeduplicateTabs c3host c3tabs).1.map Prod.fst) ∧
    ((handleDeduplicateTabs c3host c3tabs).1.length +
        (handleDeduplicateTabs c3host c3tabs).2.length =
      ((c3tabs.filter fun t => isValidTabUrl t.url).filter
        (fun t => (dedupeKey c3host t).isSome)).length) :=
  ⟨(dedupe_spec c3host c3tabs).2.2.2.2
      { id := 2, url := "http://espn.com/a", title := "Lakers win", windowId := 0 }
      (by decide),
   (dedupe_spec c3host c3tabs).2.1⟩

end WebAI
